import Mathlib

/-!
Verification of the SwiftConcur ingestion pipeline (Rust sources under
`parser/src`).  The development shallowly embeds the data model, the
regex-driven classification engine (`parser/src/parser/patterns.rs`), the
three parsing strategies (`xcodebuild.rs`, `xcresult.rs`, `rawlog.rs`), the
public line-scanning API (`lib.rs`), and the format dispatcher, and proves
the stated properties about them.

Machine integers (`usize`, `u64`, `u32`) are modelled as `Nat`; Rust byte
strings as Lean `String`/`List Char`; the file system accessed by the
context extractors as an explicit function `String → Option (List String)`;
fallible operations as `Option`/`Except`.  Regular-expression matching
(the `regex` crate's `is_match`) is modelled by a Brzozowski-derivative
matcher over an abstract-syntax embedding of each source pattern; the
`(?i)` flag is modelled by lowercasing the haystack and writing the
patterns over lowercase literals.
-/

set_option maxRecDepth 100000

namespace SwiftConcur

/-! ## Basic string helpers (used in place of the corresponding Rust
primitives so that everything reduces in the kernel). -/

/-- Character-level whitespace test, modelling `char::is_whitespace` /
regex `\s` on the ASCII range. -/
def isWs (c : Char) : Bool :=
  c = ' ' || c = '\t' || c = '\n' || c = '\r' || c = '\x0b' || c = '\x0c'

/-- Word character, modelling regex `\w` on the ASCII range. -/
def isWordChar (c : Char) : Bool :=
  c.isAlphanum || c = '_'

/-- ASCII decimal digit, modelling regex `\d`. -/
def isDigitChar (c : Char) : Bool :=
  '0' ≤ c && c ≤ '9'

/-- Lowercase a string character-wise (models the effect of the `(?i)`
regex flag and Rust `str::to_lowercase` on the ASCII range). -/
def lowerStr (s : String) : String :=
  ⟨s.data.map Char.toLower⟩

/-- Trim whitespace from both ends of a character list. -/
def trimList (cs : List Char) : List Char :=
  ((cs.dropWhile isWs).reverse.dropWhile isWs).reverse

/-- Trim whitespace from both ends, modelling Rust `str::trim`. -/
def trimStr (s : String) : String :=
  ⟨trimList s.data⟩

/-- Substring containment on character lists. -/
def listContainsSub [DecidableEq α] (pat : List α) : List α → Bool
  | [] => pat.isEmpty
  | c :: cs => pat.isPrefixOf (c :: cs) || listContainsSub pat cs

/-- Substring containment, modelling Rust `str::contains(&str)`. -/
def strContains (s pat : String) : Bool :=
  listContainsSub pat.data s.data

/-- Suffix test, modelling Rust `str::ends_with(&str)`. -/
def strEndsWith (s suffix : String) : Bool :=
  suffix.data.isSuffixOf s.data

/-- Prefix test, modelling Rust `str::starts_with(&str)`. -/
def strStartsWith (s pre : String) : Bool :=
  pre.data.isPrefixOf s.data

/-- UTF-8 byte length of a string, modelling Rust `str::len`. -/
def strBytes (s : String) : Nat :=
  s.data.foldl (fun n c => n + c.utf8Size) 0

/-- Digits-to-number conversion used when modelling `str::parse::<usize>`
on a run of ASCII digits (the embedding uses unbounded `Nat`, so the
overflow failure of the Rust parse does not arise). -/
def digitsToNat (cs : List Char) : Nat :=
  cs.foldl (fun n c => 10 * n + (c.toNat - 48)) 0

/-! ## Data model (`parser/src/models`) -/

/-- Warning categories, from `models/warning.rs`. -/
inductive WarningType where
  | actorIsolation
  | sendableConformance
  | dataRace
  | performanceRegression
  | unknown
deriving DecidableEq, Repr

/-- Severity levels, from `models/warning.rs`. -/
inductive Severity where
  | critical
  | high
  | medium
  | low
deriving DecidableEq, Repr

/-- Code context around a diagnostic line, from `models/mod.rs`. -/
structure CodeContext where
  before : List String
  line : String
  after : List String
deriving DecidableEq, Repr

/-- The normalized warning record, from `models/warning.rs`.  `PathBuf`
is modelled as `String`; `usize` as `Nat`. -/
structure Warning where
  id : String
  warning_type : WarningType
  severity : Severity
  file_path : String
  line_number : Nat
  column_number : Option Nat
  message : String
  code_context : CodeContext
  suggested_fix : Option String
deriving DecidableEq, Repr

/-- Error taxonomy of the core, from `parser/src/error.rs` (error payloads
of the wrapped `std::io::Error` / `serde_json::Error` are dropped). -/
inductive ParseError where
  | ioError
  | jsonError
  | noWarnings
  | invalidFormat (msg : String)
  | baselineError (msg : String)
deriving DecidableEq, Repr

deriving instance DecidableEq for Except

/-- File system abstraction used by the context extractors: a path maps to
the list of lines of the file when it can be opened and read. -/
abbrev FileSys := String → Option (List String)

/-- The everywhere-failing file system (no file readable). -/
def fsEmpty : FileSys := fun _ => none

/-! ## Regular expressions (Brzozowski derivatives)

The `regex` crate's `Regex::is_match` tests whether the pattern matches
some substring of the haystack.  We embed each pattern as a syntax tree
and decide substring matching by padding the pattern with `Σ*` on both
sides and running a derivative-based full matcher. -/

/-- Regular-expression syntax over character predicates. -/
inductive RE where
  | emp
  | eps
  | cls (p : Char → Bool)
  | seq (a b : RE)
  | alt (a b : RE)
  | star (a : RE)

namespace RE

/-- Smart alternation constructor (prunes the empty language). -/
def mkAlt : RE → RE → RE
  | emp, r => r
  | r, emp => r
  | a, b => alt a b

/-- Smart sequencing constructor (prunes the empty language and the empty
string). -/
def mkSeq : RE → RE → RE
  | emp, _ => emp
  | _, emp => emp
  | eps, r => r
  | r, eps => r
  | a, b => seq a b

/-- Does the language of `r` contain the empty string? -/
def nullable : RE → Bool
  | emp => false
  | eps => true
  | cls _ => false
  | seq a b => nullable a && nullable b
  | alt a b => nullable a || nullable b
  | star _ => true

/-- Brzozowski derivative of `r` with respect to character `c`. -/
def deriv (c : Char) : RE → RE
  | emp => emp
  | eps => emp
  | cls p => if p c then eps else emp
  | seq a b =>
    if nullable a then mkAlt (mkSeq (deriv c a) b) (deriv c b)
    else mkSeq (deriv c a) b
  | alt a b => mkAlt (deriv c a) (deriv c b)
  | star a => mkSeq (deriv c a) (star a)

/-- Full match of a character list against `r`. -/
def matchList (r : RE) : List Char → Bool
  | [] => nullable r
  | c :: cs => matchList (deriv c r) cs

/-- Character class matching any character (used for the substring
padding: the padding may cross newlines). -/
def anyChar : RE := cls fun _ => true

/-- Regex `.`: any character except a newline. -/
def dot : RE := cls fun c => c ≠ '\n'

/-- Regex `.*` (for `is_match` purposes `.*?` has the same language). -/
def dotStar : RE := star dot

/-- Regex `\s`. -/
def wsCls : RE := cls isWs

/-- Regex `\s+`. -/
def wsp : RE := seq wsCls (star wsCls)

/-- Regex `\s*`. -/
def wsStar : RE := star wsCls

/-- Regex `\w+`. -/
def wordPlus : RE := seq (cls isWordChar) (star (cls isWordChar))

/-- Literal string pattern. -/
def lit (s : String) : RE :=
  s.data.foldr (fun c r => seq (cls fun d => d = c) r) eps

/-- Sequencing of a list of patterns. -/
def seqs (rs : List RE) : RE :=
  rs.foldr seq eps

/-- Alternation over a list of patterns (empty list denotes the empty
language). -/
def alts (rs : List RE) : RE :=
  rs.foldr alt emp

/-- Literal words separated by `\s+` (the pattern `a\s+b\s+...`). -/
def phrase (ws : List String) : RE :=
  match ws with
  | [] => eps
  | [w] => lit w
  | w :: rest => seq (lit w) (seq wsp (phrase rest))

/-- Substring match, modelling `Regex::is_match`: some substring of `s`
is in the language of `r`. -/
def isMatch (r : RE) (s : String) : Bool :=
  matchList (seq (star anyChar) (seq r (star anyChar))) s.data

/-- Case-insensitive substring match, modelling `is_match` of a pattern
carrying the `(?i)` flag. -/
def isMatchCI (r : RE) (s : String) : Bool :=
  isMatch r (lowerStr s)

end RE

/-! ## Classification engine (`parser/src/parser/patterns.rs`)

Each `lazy_static` regex of the source is embedded as an `RE` term; all of
them carry the `(?i)` flag, so the patterns are written over lowercase
literals and matched against the lowercased message. -/

open RE in
/-- Pattern `ACTOR_ISOLATION`:
`(?i)(actor-isolated\s+(property|method|function|instance|var|let|subscript).*?(can\s*not|cannot)\s+be\s+(referenced|accessed|called|mutated))|(\w+.*is\s+actor-isolated)`. -/
def ACTOR_ISOLATION : RE :=
  alt
    (seqs [lit "actor-isolated", wsp,
           alts [lit "property", lit "method", lit "function", lit "instance",
                 lit "var", lit "let", lit "subscript"],
           dotStar,
           alt (seqs [lit "can", wsStar, lit "not"]) (lit "cannot"),
           wsp, lit "be", wsp,
           alts [lit "referenced", lit "accessed", lit "called", lit "mutated"]])
    (seqs [wordPlus, dotStar, lit "is", wsp, lit "actor-isolated"])

open RE in
/-- Pattern `SENDABLE_CONFORMANCE`:
`(?i)(type\s+'[^']+'\s+does\s+not\s+conform\s+to.*sendable)|(capture.*requires.*sendable)|(.*non-sendable.*)`. -/
def SENDABLE_CONFORMANCE : RE :=
  alts
    [seqs [lit "type", wsp, lit "'", seq (cls fun c => c.toNat ≠ 39) (star (cls fun c => c.toNat ≠ 39)),
           lit "'", wsp, lit "does", wsp, lit "not", wsp, lit "conform", wsp, lit "to",
           dotStar, lit "sendable"],
     seqs [lit "capture", dotStar, lit "requires", dotStar, lit "sendable"],
     seqs [dotStar, lit "non-sendable", dotStar]]

open RE in
/-- Pattern `DATA_RACE`:
`(?i)(data\s+race|race\s+condition|concurrent\s+access|mutation\s+of\s+captured\s+var)`. -/
def DATA_RACE : RE :=
  alts [phrase ["data", "race"], phrase ["race", "condition"],
        phrase ["concurrent", "access"],
        phrase ["mutation", "of", "captured", "var"]]

open RE in
/-- Pattern `PERFORMANCE`:
`(?i)(performance.*concurrency|async.*overhead|potential\s+deadlock|excessive\s+await)`. -/
def PERFORMANCE : RE :=
  alts [seqs [lit "performance", dotStar, lit "concurrency"],
        seqs [lit "async", dotStar, lit "overhead"],
        phrase ["potential", "deadlock"],
        phrase ["excessive", "await"]]

open RE in
/-- Pattern `TASK_WARNINGS`:
`(?i)(task.*cancelled|task.*leaked|detached\s+task)`. -/
def TASK_WARNINGS : RE :=
  alts [seqs [lit "task", dotStar, lit "cancelled"],
        seqs [lit "task", dotStar, lit "leaked"],
        phrase ["detached", "task"]]

open RE in
/-- Pattern `MAIN_ACTOR`:
`(?i)(main\s+actor.*isolation|call\s+to\s+main\s+actor|main\s+actor.*unsafe)`. -/
def MAIN_ACTOR : RE :=
  alts [seqs [lit "main", wsp, lit "actor", dotStar, lit "isolation"],
        phrase ["call", "to", "main", "actor"],
        seqs [lit "main", wsp, lit "actor", dotStar, lit "unsafe"]]

/-- The classification engine `categorize_warning` from `patterns.rs`:
first match wins, in the source's evaluation order. -/
def categorize_warning (message : String) : WarningType × Severity :=
  if RE.isMatchCI DATA_RACE message then
    (.dataRace, .critical)
  else if RE.isMatchCI ACTOR_ISOLATION message || RE.isMatchCI MAIN_ACTOR message then
    (.actorIsolation, .high)
  else if RE.isMatchCI SENDABLE_CONFORMANCE message then
    (.sendableConformance, .high)
  else if RE.isMatchCI TASK_WARNINGS message then
    (.actorIsolation, .medium)
  else if RE.isMatchCI PERFORMANCE message then
    (.performanceRegression, .medium)
  else
    (.unknown, .low)

/-! ## JSON values and text parsing (modelling `serde_json`)

`serde_json::Value` is embedded as `Json`.  Integer numbers in the
`i64`/`u64` range are carried exactly; all other numbers (fractions,
exponents, out-of-range integers) are stored by `serde_json` as `f64`, on
which `as_u64` fails, so they are collapsed into the payload-free
constructor `numF`. -/

inductive Json where
  | null
  | bool (b : Bool)
  | num (n : Int)
  | numF
  | str (s : String)
  | arr (elems : List Json)
  | obj (fields : List (String × Json))
deriving Repr

namespace Json

/-- Field lookup on an object, modelling `Value::get(key)`: the
`serde_json` map is built by insertion, so a later duplicate key
overwrites an earlier one. -/
def get (j : Json) (k : String) : Option Json :=
  match j with
  | obj fields => (fields.reverse.find? (fun f => f.1 = k)).map (·.2)
  | _ => none

/-- Modelling `Value::as_str`. -/
def asStr : Json → Option String
  | str s => some s
  | _ => none

/-- Modelling `Value::as_array`. -/
def asArr : Json → Option (List Json)
  | arr xs => some xs
  | _ => none

/-- Modelling `Value::is_array`. -/
def isArr : Json → Bool
  | arr _ => true
  | _ => false

/-- Modelling `Value::as_u64`: only integers in the `u64` range. -/
def asU64 : Json → Option Nat
  | num n => if 0 ≤ n ∧ n < 2 ^ 64 then some n.toNat else none
  | _ => none

end Json

/-- Skip JSON whitespace (space, tab, newline, carriage return). -/
def skipJsonWs (cs : List Char) : List Char :=
  cs.dropWhile fun c => c = ' ' || c = '\t' || c = '\n' || c = '\r'

/-- Hexadecimal digit value (codepoint arithmetic: `0`–`9` are 48–57,
`a`–`f` are 97–102, `A`–`F` are 65–70). -/
def hexVal (c : Char) : Option Nat :=
  let n := c.toNat
  if 48 ≤ n && n ≤ 57 then some (n - 48)
  else if 97 ≤ n && n ≤ 102 then some (n - 87)
  else if 65 ≤ n && n ≤ 70 then some (n - 55)
  else none

/-- Parse exactly four hex digits. -/
def parseHex4 : List Char → Option (Nat × List Char)
  | a :: b :: c :: d :: rest =>
    match hexVal a, hexVal b, hexVal c, hexVal d with
    | some va, some vb, some vc, some vd =>
      some (va * 4096 + vb * 256 + vc * 16 + vd, rest)
    | _, _, _, _ => none
  | _ => none

/-- Parse the body of a JSON string literal (the opening quote already
consumed), handling the escape sequences accepted by `serde_json`,
including surrogate pairs.  Unescaped control characters are rejected. -/
def parseStrBody (fuel : Nat) (acc : List Char) (cs : List Char) :
    Option (String × List Char) :=
  match fuel, cs with
  | 0, _ => none
  | _, [] => none
  | fuel + 1, c :: cs =>
    if c = '"' then some (⟨acc.reverse⟩, cs)
    else if c = '\\' then
      match cs with
      | [] => none
      | e :: cs' =>
        if e = '"' then parseStrBody fuel ('"' :: acc) cs'
        else if e = '\\' then parseStrBody fuel ('\\' :: acc) cs'
        else if e = '/' then parseStrBody fuel ('/' :: acc) cs'
        else if e = 'b' then parseStrBody fuel ('\x08' :: acc) cs'
        else if e = 'f' then parseStrBody fuel ('\x0c' :: acc) cs'
        else if e = 'n' then parseStrBody fuel ('\n' :: acc) cs'
        else if e = 'r' then parseStrBody fuel ('\r' :: acc) cs'
        else if e = 't' then parseStrBody fuel ('\t' :: acc) cs'
        else if e = 'u' then
          match parseHex4 cs' with
          | none => none
          | some (h, cs'') =>
            if h < 0xD800 || 0xE000 ≤ h then
              parseStrBody fuel (Char.ofNat h :: acc) cs''
            else if h < 0xDC00 then
              match cs'' with
              | '\\' :: 'u' :: cs3 =>
                match parseHex4 cs3 with
                | some (l, cs4) =>
                  if 0xDC00 ≤ l && l < 0xE000 then
                    parseStrBody fuel
                      (Char.ofNat (0x10000 + (h - 0xD800) * 0x400 + (l - 0xDC00)) :: acc) cs4
                  else none
                | none => none
              | _ => none
            else none
        else none
    else if c.toNat < 0x20 then none
    else parseStrBody fuel (c :: acc) cs

/-- Parse a JSON number, distinguishing exactly-representable integers
from numbers `serde_json` stores as `f64` (any fraction or exponent, and
integers outside the `u64`/`i64` ranges). -/
def parseJsonNum (cs : List Char) : Option (Json × List Char) :=
  let neg : Bool :=
    match cs with
    | '-' :: _ => true
    | _ => false
  let cs1 := if neg then cs.drop 1 else cs
  let ds := cs1.takeWhile isDigitChar
  if ds.isEmpty then none
  else if ds.length > 1 && ds.head? = some '0' then none
  else
    let rest := cs1.drop ds.length
    let n : Nat := digitsToNat ds
    let intJson : Json :=
      if neg then (if n ≤ 2 ^ 63 then .num (-(n : Int)) else .numF)
      else (if n < 2 ^ 64 then .num (n : Int) else .numF)
    match rest with
    | '.' :: r2 =>
      let fs := r2.takeWhile isDigitChar
      if fs.isEmpty then none
      else
        let r3 := r2.drop fs.length
        match r3 with
        | 'e' :: r4 => (parseJsonExp r4).map fun r5 => (Json.numF, r5)
        | 'E' :: r4 => (parseJsonExp r4).map fun r5 => (Json.numF, r5)
        | _ => some (Json.numF, r3)
    | 'e' :: r4 => (parseJsonExp r4).map fun r5 => (Json.numF, r5)
    | 'E' :: r4 => (parseJsonExp r4).map fun r5 => (Json.numF, r5)
    | _ => some (intJson, rest)
where
  /-- Parse the digits of an exponent (after `e`/`E`). -/
  parseJsonExp (cs : List Char) : Option (List Char) :=
    let cs1 :=
      match cs with
      | '+' :: r => r
      | '-' :: r => r
      | _ => cs
    let es := cs1.takeWhile isDigitChar
    if es.isEmpty then none else some (cs1.drop es.length)

mutual

/-- Parse one JSON value (leading whitespace allowed). -/
def parseJsonValue : Nat → List Char → Option (Json × List Char)
  | 0, _ => none
  | fuel + 1, cs =>
    match skipJsonWs cs with
    | [] => none
    | c :: cs' =>
      if c = '{' then
        parseJsonFields fuel cs' []
      else if c = '[' then
        parseJsonElems fuel cs' []
      else if c = '"' then
        (parseStrBody (cs'.length + 1) [] cs').map fun p => (Json.str p.1, p.2)
      else if c = 't' then
        match cs' with
        | 'r' :: 'u' :: 'e' :: rest => some (Json.bool true, rest)
        | _ => none
      else if c = 'f' then
        match cs' with
        | 'a' :: 'l' :: 's' :: 'e' :: rest => some (Json.bool false, rest)
        | _ => none
      else if c = 'n' then
        match cs' with
        | 'u' :: 'l' :: 'l' :: rest => some (Json.null, rest)
        | _ => none
      else
        parseJsonNum (c :: cs')

/-- Parse the members of an object (the opening brace already consumed). -/
def parseJsonFields : Nat → List Char → List (String × Json) →
    Option (Json × List Char)
  | 0, _, _ => none
  | fuel + 1, cs, acc =>
    match skipJsonWs cs with
    | [] => none
    | c :: cs' =>
      if c = '}' then
        if acc.isEmpty then some (Json.obj [], cs') else none
      else if c = '"' then
        match parseStrBody (cs'.length + 1) [] cs' with
        | none => none
        | some (key, cs'') =>
          match skipJsonWs cs'' with
          | ':' :: cs3 =>
            match parseJsonValue fuel cs3 with
            | none => none
            | some (v, cs4) =>
              match skipJsonWs cs4 with
              | ',' :: cs5 => parseJsonFieldsMore fuel cs5 ((key, v) :: acc)
              | '}' :: cs5 => some (Json.obj (((key, v) :: acc).reverse), cs5)
              | _ => none
          | _ => none
      else none

/-- Continue an object after a comma (a member is now mandatory). -/
def parseJsonFieldsMore : Nat → List Char → List (String × Json) →
    Option (Json × List Char)
  | 0, _, _ => none
  | fuel + 1, cs, acc =>
    match skipJsonWs cs with
    | '"' :: cs' =>
      match parseStrBody (cs'.length + 1) [] cs' with
      | none => none
      | some (key, cs'') =>
        match skipJsonWs cs'' with
        | ':' :: cs3 =>
          match parseJsonValue fuel cs3 with
          | none => none
          | some (v, cs4) =>
            match skipJsonWs cs4 with
            | ',' :: cs5 => parseJsonFieldsMore fuel cs5 ((key, v) :: acc)
            | '}' :: cs5 => some (Json.obj (((key, v) :: acc).reverse), cs5)
            | _ => none
        | _ => none
    | _ => none

/-- Parse the elements of an array (the opening bracket already
consumed). -/
def parseJsonElems : Nat → List Char → List Json → Option (Json × List Char)
  | 0, _, _ => none
  | fuel + 1, cs, acc =>
    match skipJsonWs cs with
    | [] => none
    | c :: cs' =>
      if c = ']' then
        if acc.isEmpty then some (Json.arr [], cs') else none
      else
        match parseJsonValue fuel (c :: cs') with
        | none => none
        | some (v, cs'') =>
          match skipJsonWs cs'' with
          | ',' :: cs3 => parseJsonElemsMore fuel cs3 (v :: acc)
          | ']' :: cs3 => some (Json.arr ((v :: acc).reverse), cs3)
          | _ => none

/-- Continue an array after a comma (an element is now mandatory). -/
def parseJsonElemsMore : Nat → List Char → List Json →
    Option (Json × List Char)
  | 0, _, _ => none
  | fuel + 1, cs, acc =>
    match parseJsonValue fuel cs with
    | none => none
    | some (v, cs'') =>
      match skipJsonWs cs'' with
      | ',' :: cs3 => parseJsonElemsMore fuel cs3 (v :: acc)
      | ']' :: cs3 => some (Json.arr ((v :: acc).reverse), cs3)
      | _ => none

end

/-- Parse a complete JSON document, modelling
`serde_json::from_str::<Value>`: one value, possibly surrounded by
whitespace, consuming the entire input. -/
def jsonParse (s : String) : Option Json :=
  match parseJsonValue (2 * s.data.length + 4) s.data with
  | some (v, rest) => if (skipJsonWs rest).isEmpty then some v else none
  | none => none

/-! ## Serde field-access helpers for typed record decoding

`serde_json::from_str::<T>` for a struct `T` is modelled as JSON text
parsing (`jsonParse`) followed by a typed decode from the `Json` value:
a required `String` field must be present as a string; an `Option` field
may be absent or `null`; a present field of the wrong type fails the
decode of the whole record. -/

/-- Decode an optional `String` struct field. -/
def Json.getOptStr (j : Json) (k : String) : Option (Option String) :=
  match j.get k with
  | none => some none
  | some .null => some none
  | some (.str s) => some (some s)
  | some _ => none

/-- Decode an optional `u64` struct field. -/
def Json.getOptU64 (j : Json) (k : String) : Option (Option Nat) :=
  match j.get k with
  | none => some none
  | some .null => some none
  | some v =>
    match v.asU64 with
    | some n => some (some n)
    | none => none

/-- Decode a required `String` struct field. -/
def Json.getReqStr (j : Json) (k : String) : Option String :=
  (j.get k).bind Json.asStr

/-! ## Structured-diagnostic parser (`parser/src/parser/xcodebuild.rs`) -/

/-- Record shape `XcodeBuildDiagnostic` (serde renames: `type` →
`diagnostic_type`, `characterRangeStart`/`characterRangeEnd`/
`categoryIdent`). -/
structure XcodeBuildDiagnostic where
  diagnostic_type : String
  message : String
  file : Option String
  line : Option Nat
  column : Option Nat
  severity : Option String
  character_range_start : Option Nat
  character_range_end : Option Nat
  category_ident : Option String
deriving DecidableEq, Repr

/-- Typed decode of `XcodeBuildDiagnostic`, modelling
`serde_json::from_str::<XcodeBuildDiagnostic>` applied to an
already-parsed JSON value (unknown fields are ignored, as the struct has
no `deny_unknown_fields` attribute). -/
def XcodeBuildDiagnostic.decode (j : Json) : Option XcodeBuildDiagnostic :=
  match j with
  | .obj _ => do
    let t ← j.getReqStr "type"
    let m ← j.getReqStr "message"
    let file ← j.getOptStr "file"
    let line ← j.getOptU64 "line"
    let column ← j.getOptU64 "column"
    let sev ← j.getOptStr "severity"
    let crs ← j.getOptU64 "characterRangeStart"
    let cre ← j.getOptU64 "characterRangeEnd"
    let ci ← j.getOptStr "categoryIdent"
    some ⟨t, m, file, line, column, sev, crs, cre, ci⟩
  | _ => none

/-- Record shape `XcodeBuildMessage` (serde renames: `type` →
`message_type`, `filePath`, `lineNumber`, `columnNumber`). -/
structure XcodeBuildMessage where
  message_type : String
  message : String
  file_path : Option String
  line_number : Option Nat
  column_number : Option Nat
deriving DecidableEq, Repr

/-- Typed decode of `XcodeBuildMessage`, modelling
`serde_json::from_str::<XcodeBuildMessage>` on a parsed JSON value. -/
def XcodeBuildMessage.decode (j : Json) : Option XcodeBuildMessage :=
  match j with
  | .obj _ => do
    let t ← j.getReqStr "type"
    let m ← j.getReqStr "message"
    let fp ← j.getOptStr "filePath"
    let ln ← j.getOptU64 "lineNumber"
    let cn ← j.getOptU64 "columnNumber"
    some ⟨t, m, fp, ln, cn⟩
  | _ => none

/-- The empty code context. -/
def emptyCtx : CodeContext := ⟨[], "", []⟩

/-- Rust slice `&xs[a..b]` (in the source always applied with
`a ≤ b ≤ xs.len()`). -/
def sliceList (xs : List α) (a b : Nat) : List α :=
  (xs.drop a).take (b - a)

/-- The parser struct `XcodeBuildParser { context_lines: usize }`. -/
structure XcodeBuildParser where
  context_lines : Nat
deriving DecidableEq, Repr

namespace XcodeBuildParser

/-- Method `suggest_fix` of `XcodeBuildParser` (it does not use `self`). -/
def suggest_fix (warning_type : WarningType) (message : String) : Option String :=
  match warning_type with
  | .actorIsolation =>
    if strContains message "can not be referenced" || strContains message "cannot be referenced" then
      some "Consider using 'await' to access the actor-isolated member, or move this code into an actor context."
    else if strContains message "Main actor" then
      some "Consider using '@MainActor' annotation or dispatching to the main queue."
    else
      some "Ensure proper actor isolation by using 'await' or moving code to appropriate actor context."
  | .sendableConformance =>
    if strContains message "does not conform" then
      some "Add 'Sendable' conformance to the type or use '@unchecked Sendable' if thread-safe."
    else if strContains message "capture" then
      some "Ensure captured values conform to 'Sendable' or restructure to avoid capture."
    else
      some "Review Sendable conformance requirements for concurrent contexts."
  | .dataRace =>
    some "Protect shared mutable state with proper synchronization (locks, actors, or atomic operations)."
  | .performanceRegression =>
    some "Review async/await usage patterns and consider optimizing concurrency structure."
  | .unknown => none

/-- Method `extract_code_context` of `XcodeBuildParser`: reads the named
file through the abstract file system and slices around the 1-based
target line. -/
def extract_code_context (p : XcodeBuildParser) (fs : FileSys)
    (file_path : String) (line_number : Nat) : CodeContext :=
  match fs file_path with
  | some lines =>
    if 0 < line_number ∧ line_number ≤ lines.length then
      let target := line_number - 1
      let startIdx := target - p.context_lines
      let endIdx := min (target + p.context_lines + 1) lines.length
      { before := sliceList lines startIdx target
        line := (lines.get? target).getD ""
        after := sliceList lines (target + 1) endIdx }
    else emptyCtx
  | none => emptyCtx

/-- Method `extract_warning_from_diagnostic`. -/
def extract_warning_from_diagnostic (p : XcodeBuildParser) (fs : FileSys)
    (d : XcodeBuildDiagnostic) : Option Warning :=
  if d.diagnostic_type ≠ "warning" then none
  else
    let message := d.message
    let (warning_type, severity) := categorize_warning message
    if warning_type = .unknown then none
    else
      let file_path := d.file.getD "unknown"
      let line_number := d.line.getD 0
      let column_number := d.column
      let id := file_path ++ ":" ++ Nat.repr line_number ++ ":" ++ Nat.repr (strBytes message)
      let code_context := p.extract_code_context fs file_path line_number
      some { id, warning_type, severity, file_path, line_number, column_number,
             message, code_context,
             suggested_fix := suggest_fix warning_type message }

/-- Method `extract_warning_from_message`. -/
def extract_warning_from_message (p : XcodeBuildParser) (fs : FileSys)
    (m : XcodeBuildMessage) : Option Warning :=
  if m.message_type ≠ "warning" then none
  else
    let msg := m.message
    let (warning_type, severity) := categorize_warning msg
    if warning_type = .unknown then none
    else
      let file_path := m.file_path.getD "unknown"
      let line_number := m.line_number.getD 0
      let column_number := m.column_number
      let id := file_path ++ ":" ++ Nat.repr line_number ++ ":" ++ Nat.repr (strBytes msg)
      let code_context := p.extract_code_context fs file_path line_number
      some { id, warning_type, severity, file_path, line_number, column_number,
             message := msg, code_context,
             suggested_fix := suggest_fix warning_type msg }

/-- Method `extract_warning_from_value`: generic JSON probing with the
`or_else` field-name chains of the source. -/
def extract_warning_from_value (p : XcodeBuildParser) (fs : FileSys)
    (j : Json) : Option Warning :=
  match (j.get "type").bind Json.asStr with
  | none => none
  | some msg_type =>
    if msg_type ≠ "warning" then none
    else
      match (j.get "message").bind Json.asStr with
      | none => none
      | some message =>
        let (warning_type, severity) := categorize_warning message
        if warning_type = .unknown then none
        else
          let file_path :=
            ((((j.get "file").orElse fun _ => j.get "filePath")).bind Json.asStr).getD "unknown"
          let line_number :=
            ((((j.get "line").orElse fun _ => j.get "lineNumber")).bind Json.asU64).getD 0
          let column_number :=
            (((j.get "column").orElse fun _ => j.get "columnNumber")).bind Json.asU64
          let id := file_path ++ ":" ++ Nat.repr line_number ++ ":" ++ Nat.repr (strBytes message)
          let code_context := p.extract_code_context fs file_path line_number
          some { id, warning_type, severity, file_path, line_number, column_number,
                 message, code_context,
                 suggested_fix := suggest_fix warning_type message }

/-- Method `parse_line`: try the three record shapes in order.  In the
source each attempt is `serde_json::from_str::<T>` on the line text; all
three attempts fail on text that is not valid JSON, so the text parse is
factored out in front. -/
def parse_line (p : XcodeBuildParser) (fs : FileSys) (line : String) :
    Option Warning :=
  match jsonParse line with
  | none => none
  | some j =>
    match XcodeBuildDiagnostic.decode j with
    | some d => p.extract_warning_from_diagnostic fs d
    | none =>
      match XcodeBuildMessage.decode j with
      | some m => p.extract_warning_from_message fs m
      | none => p.extract_warning_from_value fs j

/-- Method `parse_stream`, over the list of input lines (the push loop of
the source is a `filterMap`; lines that are empty after trimming are
skipped up front). -/
def parse_stream (p : XcodeBuildParser) (fs : FileSys)
    (input : List String) : List Warning :=
  input.filterMap fun line =>
    if (trimStr line).data.isEmpty then none else p.parse_line fs line

end XcodeBuildParser

/-! ## Raw-text log parser (`parser/src/parser/rawlog.rs`)

The line pattern `WARNING_PATTERN` is
`^(?P<file_path>[^:]+\.swift):(?P<line>\d+):(?P<column>\d+):\s*warning:\s*(?P<message>.+)$`
(case-sensitive, anchored).  Its capture extraction is embedded directly:
`[^:]+` cannot cross a colon and is followed by the literal `:`, so the
file-path capture is exactly the maximal colon-free prefix, which must
end in `.swift` preceded by at least one character; `\d+` followed by `:`
is the maximal digit run; greedy `\s*` before `warning:` is the maximal
whitespace run (backtracking cannot help, since `warning:` starts with a
non-space character); and the final `\s*(?P<message>.+)$` takes the rest
after the maximal whitespace run unless that leaves nothing, in which
case backtracking concedes the last whitespace character to `.+`. -/

/-- Capture of `\s*(?P<message>.+)$` on the remainder after `warning:`
(regex `.` matches no newline, so a remainder whose non-space tail
contains one cannot match). -/
def msgCapture (rest : List Char) : Option (List Char) :=
  let t := rest.dropWhile isWs
  if t.isEmpty then
    match rest.getLast? with
    | some c => if c = '\n' then none else some [c]
    | none => none
  else if t.contains '\n' then none
  else some t

/-- Anchored match of `WARNING_PATTERN`, returning the four captures
(file path, line, column, message). -/
def matchWarningLine (s : String) : Option (String × Nat × Nat × String) :=
  let cs := s.data
  let fp := cs.takeWhile fun c => c ≠ ':'
  if 7 ≤ fp.length && ".swift".data.isSuffixOf fp then
    match cs.drop fp.length with
    | ':' :: r1 =>
      let d1 := r1.takeWhile isDigitChar
      if d1.isEmpty then none
      else
        match r1.drop d1.length with
        | ':' :: r3 =>
          let d2 := r3.takeWhile isDigitChar
          if d2.isEmpty then none
          else
            match r3.drop d2.length with
            | ':' :: r5 =>
              let r6 := r5.dropWhile isWs
              if "warning:".data.isPrefixOf r6 then
                match msgCapture (r6.drop 8) with
                | some msg => some (⟨fp⟩, digitsToNat d1, digitsToNat d2, ⟨msg⟩)
                | none => none
              else none
            | _ => none
        | _ => none
    | _ => none
  else none

/-- The parser struct `RawLogParser { context_lines: usize }`. -/
structure RawLogParser where
  context_lines : Nat
deriving DecidableEq, Repr

namespace RawLogParser

/-- Method `suggest_fix` of `RawLogParser` (its ActorIsolation branches
differ from the `XcodeBuildParser` variant). -/
def suggest_fix (warning_type : WarningType) (message : String) : Option String :=
  match warning_type with
  | .actorIsolation =>
    if strContains message "can not be mutated" || strContains message "cannot be mutated" then
      some "Consider using 'await' or @MainActor to safely mutate the actor-isolated property."
    else if strContains message "can not be referenced" || strContains message "cannot be referenced" then
      some "Use 'await' to access the actor-isolated member, or move this code into an actor context."
    else if strContains message "Main actor" then
      some "Use '@MainActor' annotation or dispatch to the main queue with 'await MainActor.run'."
    else
      some "Ensure proper actor isolation by using 'await' or moving code to appropriate actor context."
  | .sendableConformance =>
    if strContains message "does not conform" then
      some "Add 'Sendable' conformance to the type or use '@unchecked Sendable' if thread-safe."
    else if strContains message "capture" then
      some "Ensure captured values conform to 'Sendable' or restructure to avoid capture."
    else
      some "Review Sendable conformance requirements for concurrent contexts."
  | .dataRace =>
    some "Protect shared mutable state with proper synchronization (actors, locks, or atomic operations)."
  | .performanceRegression =>
    some "Review async/await usage patterns and consider optimizing concurrency structure."
  | .unknown => none

/-- Method `extract_code_context` of `RawLogParser`. -/
def extract_code_context (p : RawLogParser) (fs : FileSys)
    (file_path : String) (line_number : Nat) : CodeContext :=
  match fs file_path with
  | some lines =>
    if 0 < line_number ∧ line_number ≤ lines.length then
      let target := line_number - 1
      let startIdx := target - p.context_lines
      let endIdx := min (target + 1 + p.context_lines) lines.length
      { before := sliceList lines startIdx target
        line := (lines.get? target).getD ""
        after := sliceList lines (target + 1) endIdx }
    else emptyCtx
  | none => emptyCtx

/-- Method `parse_warning_line`: match the line pattern, classify, filter
out non-concurrency messages, and build the warning. -/
def parse_warning_line (p : RawLogParser) (fs : FileSys) (line : String) :
    Option Warning :=
  match matchWarningLine (trimStr line) with
  | none => none
  | some (file_path, line_number, column_number, rawMsg) =>
    let message := trimStr rawMsg
    let (warning_type, severity) := categorize_warning message
    if warning_type = .unknown then none
    else
      let id := file_path ++ ":" ++ Nat.repr line_number ++ ":" ++ Nat.repr (strBytes message)
      let code_context := p.extract_code_context fs file_path line_number
      some { id, warning_type, severity, file_path, line_number,
             column_number := some column_number, message, code_context,
             suggested_fix := suggest_fix warning_type message }

/-- Method `parse_stream`, over the list of input lines. -/
def parse_stream (p : RawLogParser) (fs : FileSys) (input : List String) :
    List Warning :=
  input.filterMap fun line => p.parse_warning_line fs line

end RawLogParser

/-! ## Structured-tree parser (`parser/src/parser/xcresult.rs`)

The location regex `URL_PARSER` is
`file://(?P<path>[^#]+)#.*?(StartingLineNumber|EndingLineNumber|line)=(?P<line>\d+)`
(case-sensitive, unanchored search).  Its leftmost-first capture
extraction is embedded directly: the search tries successive start
offsets, which must begin with the literal `file://`; `[^#]+` cannot
contain `#` and is followed by the literal `#`, so the path capture is
the maximal `#`-free run after `file://` (nonempty); the lazy `.*?`
(which cannot cross a newline) finds the earliest subsequent position at
which one of the three keywords, `=`, and at least one digit match, the
alternatives tried in source order; the line capture is the maximal digit
run there. -/

/-- Try the three keyword alternatives (followed by `=` and digits) at
the current position. -/
def urlKeyHere (cs : List Char) : Option Nat :=
  match urlTryKey "StartingLineNumber=" cs with
  | some n => some n
  | none =>
    match urlTryKey "EndingLineNumber=" cs with
    | some n => some n
    | none => urlTryKey "line=" cs
where
  /-- Match one literal keyword plus `=` plus a nonempty digit run. -/
  urlTryKey (k : String) (cs : List Char) : Option Nat :=
    if k.data.isPrefixOf cs then
      let r := cs.drop k.data.length
      let ds := r.takeWhile isDigitChar
      if ds.isEmpty then none else some (digitsToNat ds)
    else none

/-- Scan for the earliest keyword match after the `#`, not crossing a
newline (the gap is matched by `.*?`). -/
def scanUrlKeys : List Char → Option Nat
  | [] => none
  | c :: cs =>
    match urlKeyHere (c :: cs) with
    | some n => some n
    | none => if c = '\n' then none else scanUrlKeys cs

/-- Attempt a complete match at one `file://` occurrence (the prefix
already consumed). -/
def urlAttempt (cs : List Char) : Option (String × Nat) :=
  let path := cs.takeWhile fun c => c ≠ '#'
  if path.isEmpty then none
  else
    match cs.drop path.length with
    | '#' :: rest => (scanUrlKeys rest).map fun n => (⟨path⟩, n)
    | _ => none

/-- Leftmost-first search for the `URL_PARSER` pattern. -/
def findFileUrl : List Char → Option (String × Nat)
  | [] => none
  | c :: cs =>
    match (if "file://".data.isPrefixOf (c :: cs) then urlAttempt ((c :: cs).drop 7) else none) with
    | some r => some r
    | none => findFileUrl cs

/-- Captures of `URL_PARSER` on a URL string: the file path (no `#`) and
the line number (the Rust side's `parse::<u32>().unwrap_or(0)` cannot
overflow in the `Nat` model). -/
def urlParse (url : String) : Option (String × Nat) :=
  findFileUrl url.data

/-- The parser struct `XcresultParser { context_lines: usize }`. -/
structure XcresultParser where
  context_lines : Nat
deriving DecidableEq, Repr

namespace XcresultParser

/-- Method `extract_code_context` of `XcresultParser`. -/
def extract_code_context (p : XcresultParser) (fs : FileSys)
    (file_path : String) (line_number : Nat) : CodeContext :=
  match fs file_path with
  | some lines =>
    if 0 < line_number ∧ line_number ≤ lines.length then
      let target := line_number - 1
      let startIdx := target - p.context_lines
      let endIdx := min (target + 1 + p.context_lines) lines.length
      { before := sliceList lines startIdx target
        line := (lines.get? target).getD ""
        after := sliceList lines (target + 1) endIdx }
    else emptyCtx
  | none => emptyCtx

/-- The `issueType._value` string of an issue entry (empty string when
absent, as in the source's `unwrap_or("")`). -/
def issueTypeOf (issue : Json) : String :=
  ((((issue.get "issueType").bind fun v => v.get "_value")).bind Json.asStr).getD ""

/-- The `message._value` string of an issue entry (empty string when
absent). -/
def messageOf (issue : Json) : String :=
  ((((issue.get "message").bind fun v => v.get "_value")).bind Json.asStr).getD ""

/-- The location URL of an issue entry: the `or_else` chain over the
primary key path and the three historical alternates. -/
def urlOf (issue : Json) : Option String :=
  ((((issue.get "documentLocationInCreatingWorkspace").bind fun d => d.get "url").bind
      fun u => u.get "_value").bind Json.asStr).orElse fun _ =>
  (((issue.get "documentURL").bind fun u => u.get "_value").bind Json.asStr).orElse fun _ =>
  ((((issue.get "documentLocation").bind fun d => d.get "url").bind
      fun u => u.get "_value").bind Json.asStr).orElse fun _ =>
  (((issue.get "documentLocationInWorkspace").bind fun d => d.get "url").bind
      fun u => u.get "_value").bind Json.asStr

/-- The per-issue body of the `parse_json` loop: filter by issue type,
classify, filter Unknown, resolve and pattern-match the location URL,
and build the warning. -/
def processIssue (p : XcresultParser) (fs : FileSys) (issue : Json) :
    Option Warning :=
  let issue_type := issueTypeOf issue
  if ¬ strContains (lowerStr issue_type) "warning" then none
  else
    let message := messageOf issue
    let (warning_type, severity) := categorize_warning message
    if warning_type = .unknown then none
    else
      match urlOf issue with
      | none => none
      | some url =>
        match urlParse url with
        | none => none
        | some (file_path, line_number) =>
          let code_context := p.extract_code_context fs file_path line_number
          let id := file_path ++ ":" ++ Nat.repr line_number ++ ":" ++ Nat.repr (strBytes message)
          some { id, warning_type, severity, file_path, line_number,
                 column_number := none, message, code_context,
                 suggested_fix := none }

/-- Method `parse_json` after the initial `serde_json::from_str` step:
locate the issues array (`_values` holding an array, else a bare
top-level array, else a terminal format error) and process each entry. -/
def parse_json_value (p : XcresultParser) (fs : FileSys) (value : Json) :
    Except ParseError (List Warning) :=
  match (value.get "_values").bind Json.asArr with
  | some issues => .ok (issues.filterMap (processIssue p fs))
  | none =>
    if value.isArr then .ok ((value.asArr.getD []).filterMap (processIssue p fs))
    else .error (.invalidFormat "xcresult JSON missing _values array")

/-- Method `parse_json` on the raw text: parse the JSON document (a
malformed document is a terminal `serde_json` error), then locate and
process the issues. -/
def parse_json (p : XcresultParser) (fs : FileSys) (json_content : String) :
    Except ParseError (List Warning) :=
  match jsonParse json_content with
  | none => .error .jsonError
  | some value => parse_json_value p fs value

end XcresultParser

/-! ## Line splitting

Models both `str::lines` (used by `lib.rs::find_concurrency_warnings`)
and `BufRead::lines` over an in-memory reader (used by the streaming
variants): lines are split at `\n`; a line terminated by `\r\n` loses the
`\r`; a final unterminated segment is kept as-is (including a bare
trailing `\r`); a trailing terminator produces no extra empty line. -/

/-- Strip one trailing carriage return. -/
def stripTrailCR (cs : List Char) : List Char :=
  match cs.getLast? with
  | some '\r' => cs.dropLast
  | _ => cs

/-- Accumulating splitter at `\n` (the accumulator holds the current
line reversed). -/
def splitNlAux (cur : List Char) : List Char → List (List Char)
  | [] => [cur.reverse]
  | c :: rest =>
    if c = '\n' then stripTrailCR cur.reverse :: splitNlAux [] rest
    else splitNlAux (c :: cur) rest

/-- The list of lines of a string. -/
def linesOf (s : String) : List String :=
  if s.data.isEmpty then []
  else
    let segs := splitNlAux [] s.data
    let segs := if s.data.getLast? = some '\n' then segs.dropLast else segs
    segs.map fun l => ⟨l⟩

/-! ## Public line-scanning API (`parser/src/lib.rs`) -/

/-- Record shape `XCMessage` (serde rename: `type` → `kind`). -/
structure XCMessage where
  kind : String
  message : String
deriving DecidableEq, Repr

/-- Typed decode of `XCMessage`, modelling
`serde_json::from_str::<XCMessage>` on a parsed JSON value. -/
def XCMessage.decode (j : Json) : Option XCMessage :=
  match j with
  | .obj _ => do
    let t ← j.getReqStr "type"
    let m ← j.getReqStr "message"
    some ⟨t, m⟩
  | _ => none

/-- Decode one input line as an `XCMessage` (text parse plus typed
decode). -/
def xcMessageOfLine (line : String) : Option XCMessage :=
  (jsonParse line).bind XCMessage.decode

open RE in
/-- Pattern `WARN_RE`: `(actor-isolated|requires 'Sendable')`
(case-sensitive). -/
def WARN_RE : RE :=
  alt (lit "actor-isolated") (lit "requires 'Sendable'")

/-- The per-line logic that `find_concurrency_warnings` and its
streaming variant repeat verbatim in the source: decode the line as an
`XCMessage` and keep the message when the kind equals "warning" and the
message matches `WARN_RE`. -/
def concurrencyHit (line : String) : Option String :=
  match xcMessageOfLine line with
  | some m =>
    if m.kind == "warning" && RE.isMatch WARN_RE m.message then some m.message
    else none
  | none => none

/-- The in-memory scanner `find_concurrency_warnings`: per line, decode
as `XCMessage`, keep warnings whose message matches `WARN_RE`, and
collect the messages in order. -/
def find_concurrency_warnings (input : String) : List String :=
  (linesOf input).filterMap concurrencyHit

/-- One iteration of the streaming scanner's push loop: append the
message when the line hits. -/
def pushHit (warnings : List String) (line : String) : List String :=
  match concurrencyHit line with
  | some msg => warnings ++ [msg]
  | none => warnings

/-- The streaming scanner `find_concurrency_warnings_streaming`, applied
to a reader over the bytes of `input` (reading an in-memory string never
produces an I/O error, so the model always returns `Ok`; the push loop
of the source is a left fold of `pushHit`). -/
def find_concurrency_warnings_streaming (input : String) :
    Except ParseError (List String) :=
  .ok ((linesOf input).foldl pushHit [])

/-! ## Format dispatcher

Modelled from the spec: the dispatcher (the parsing stage of the `run`
function that `main.rs` and the integration tests invoke) is not among
the provided sources — only its callers are.  Per the spec it reads the
full input once; treats it as structured-tree when the trimmed content
starts with `{` and contains the tree format's array marker (the
`_values` key used by the structured-tree parser); otherwise treats it as
structured-diagnostic JSON lines; and when the primary strategy returns
an empty set re-reads the same input and runs the raw-text parser, whose
result is final.  A terminal error of the primary strategy propagates. -/

/-- Modelled from the spec: the primary-hypothesis strategy chosen by the
dispatcher's sniffing heuristic for an input text. -/
def primaryStrategy (context_lines : Nat) (fs : FileSys) (input : String) :
    Except ParseError (List Warning) :=
  let t := trimStr input
  if strStartsWith t "\x7b" && strContains t "_values" then
    XcresultParser.parse_json ⟨context_lines⟩ fs input
  else
    .ok (XcodeBuildParser.parse_stream ⟨context_lines⟩ fs (linesOf input))

/-- Modelled from the spec: the dispatcher's two-strategy fallback chain
(structured guess, then raw-text on the same re-read input when the
primary result is empty). -/
def dispatch (context_lines : Nat) (fs : FileSys) (input : String) :
    Except ParseError (List Warning) :=
  match primaryStrategy context_lines fs input with
  | .error e => .error e
  | .ok ws =>
    if ws.isEmpty then
      .ok (RawLogParser.parse_stream ⟨context_lines⟩ fs (linesOf input))
    else .ok ws

/-! ## House lemmas: every construction site builds the warning from the
classification of its message and filters out `Unknown` first. -/

/-- The classification outcome always lies in the six source pairs. -/
theorem categorize_warning_shape (m : String) :
    categorize_warning m = (.dataRace, .critical) ∨
    categorize_warning m = (.actorIsolation, .high) ∨
    categorize_warning m = (.sendableConformance, .high) ∨
    categorize_warning m = (.actorIsolation, .medium) ∨
    categorize_warning m = (.performanceRegression, .medium) ∨
    categorize_warning m = (.unknown, .low) := by
  unfold categorize_warning
  repeat' split
  all_goals simp

theorem extract_warning_from_diagnostic_cat
    (p : XcodeBuildParser) (fs : FileSys) (d : XcodeBuildDiagnostic) (w : Warning)
    (h : p.extract_warning_from_diagnostic fs d = some w) :
    (w.warning_type, w.severity) = categorize_warning w.message ∧
      w.warning_type ≠ .unknown := by
  unfold XcodeBuildParser.extract_warning_from_diagnostic at h
  split at h
  · exact absurd h (by simp)
  · simp only [] at h
    split at h
    · exact absurd h (by simp)
    next hne =>
      cases h
      exact ⟨by simp, by simpa using hne⟩

theorem extract_warning_from_message_cat
    (p : XcodeBuildParser) (fs : FileSys) (m : XcodeBuildMessage) (w : Warning)
    (h : p.extract_warning_from_message fs m = some w) :
    (w.warning_type, w.severity) = categorize_warning w.message ∧
      w.warning_type ≠ .unknown := by
  unfold XcodeBuildParser.extract_warning_from_message at h
  split at h
  · exact absurd h (by simp)
  · simp only [] at h
    split at h
    · exact absurd h (by simp)
    next hne =>
      cases h
      exact ⟨by simp, by simpa using hne⟩

theorem extract_warning_from_value_cat
    (p : XcodeBuildParser) (fs : FileSys) (j : Json) (w : Warning)
    (h : p.extract_warning_from_value fs j = some w) :
    (w.warning_type, w.severity) = categorize_warning w.message ∧
      w.warning_type ≠ .unknown := by
  unfold XcodeBuildParser.extract_warning_from_value at h
  split at h
  · exact absurd h (by simp)
  · split at h
    · exact absurd h (by simp)
    · split at h
      · exact absurd h (by simp)
      · simp only [] at h
        split at h
        · exact absurd h (by simp)
        next hne =>
          cases h
          exact ⟨by simp, by simpa using hne⟩

theorem parse_line_cat (p : XcodeBuildParser) (fs : FileSys) (line : String)
    (w : Warning) (h : p.parse_line fs line = some w) :
    (w.warning_type, w.severity) = categorize_warning w.message ∧
      w.warning_type ≠ .unknown := by
  unfold XcodeBuildParser.parse_line at h
  split at h
  · exact absurd h (by simp)
  · split at h
    · exact extract_warning_from_diagnostic_cat _ _ _ _ h
    · split at h
      · exact extract_warning_from_message_cat _ _ _ _ h
      · exact extract_warning_from_value_cat _ _ _ _ h

theorem parse_warning_line_cat (p : RawLogParser) (fs : FileSys)
    (line : String) (w : Warning) (h : p.parse_warning_line fs line = some w) :
    (w.warning_type, w.severity) = categorize_warning w.message ∧
      w.warning_type ≠ .unknown := by
  unfold RawLogParser.parse_warning_line at h
  split at h
  · exact absurd h (by simp)
  · simp only [] at h
    split at h
    · exact absurd h (by simp)
    next hne =>
      cases h
      exact ⟨by simp, by simpa using hne⟩

theorem processIssue_cat (p : XcresultParser) (fs : FileSys) (issue : Json)
    (w : Warning) (h : p.processIssue fs issue = some w) :
    (w.warning_type, w.severity) = categorize_warning w.message ∧
      w.warning_type ≠ .unknown := by
  unfold XcresultParser.processIssue at h
  split at h
  · exact absurd h (by simp)
  · simp only [] at h
    split at h
    · exact absurd h (by simp)
    · split at h
      · exact absurd h (by simp)
      · split at h
        · exact absurd h (by simp)
        · cases h
          exact ⟨by simp, by simp_all⟩

theorem parse_json_value_ok_cat (p : XcresultParser) (fs : FileSys) (value : Json)
    (ws : List Warning) (h : p.parse_json_value fs value = .ok ws)
    (w : Warning) (hw : w ∈ ws) :
    (w.warning_type, w.severity) = categorize_warning w.message ∧
      w.warning_type ≠ .unknown := by
  unfold XcresultParser.parse_json_value at h
  split at h
  · cases h
    obtain ⟨issue, _, hi⟩ := List.mem_filterMap.mp hw
    exact processIssue_cat _ _ _ _ hi
  · split at h
    · cases h
      obtain ⟨issue, _, hi⟩ := List.mem_filterMap.mp hw
      exact processIssue_cat _ _ _ _ hi
    · cases h

/-- Every warning in an `XcodeBuildParser::parse_stream` result carries
the classification of its message. -/
theorem parse_stream_xcb_cat (p : XcodeBuildParser) (fs : FileSys)
    (input : List String) (w : Warning) (hw : w ∈ p.parse_stream fs input) :
    (w.warning_type, w.severity) = categorize_warning w.message ∧
      w.warning_type ≠ .unknown := by
  obtain ⟨line, _, hline⟩ := List.mem_filterMap.mp hw
  split at hline
  · cases hline
  · exact parse_line_cat _ _ _ _ hline

/-- Every warning in an `XcresultParser::parse_json` result carries the
classification of its message. -/
theorem parse_json_str_cat (p : XcresultParser) (fs : FileSys) (s : String)
    (ws : List Warning) (h : p.parse_json fs s = .ok ws)
    (w : Warning) (hw : w ∈ ws) :
    (w.warning_type, w.severity) = categorize_warning w.message ∧
      w.warning_type ≠ .unknown := by
  unfold XcresultParser.parse_json at h
  split at h
  · cases h
  · exact parse_json_value_ok_cat _ _ _ _ h w hw

/-- Every warning in a `RawLogParser::parse_stream` result carries the
classification of its message. -/
theorem parse_stream_raw_cat (p : RawLogParser) (fs : FileSys)
    (input : List String) (w : Warning) (hw : w ∈ p.parse_stream fs input) :
    (w.warning_type, w.severity) = categorize_warning w.message ∧
      w.warning_type ≠ .unknown := by
  obtain ⟨line, _, hline⟩ := List.mem_filterMap.mp hw
  exact parse_warning_line_cat _ _ _ _ hline

/-! ## Claim theorems -/

/-- C1: for every input accepted by any of the three parsing strategies,
no warning in the returned list has `warning_type == Unknown`: every
candidate diagnostic whose message classifies as Unknown is filtered out
before a Warning value is constructed. -/
theorem no_unknown_warning_constructed :
    (∀ (p : XcodeBuildParser) (fs : FileSys) (input : List String),
      ∀ w ∈ p.parse_stream fs input, w.warning_type ≠ .unknown) ∧
    (∀ (p : XcresultParser) (fs : FileSys) (s : String) (ws : List Warning),
      p.parse_json fs s = .ok ws → ∀ w ∈ ws, w.warning_type ≠ .unknown) ∧
    (∀ (p : RawLogParser) (fs : FileSys) (input : List String),
      ∀ w ∈ p.parse_stream fs input, w.warning_type ≠ .unknown) :=
  ⟨fun p fs input w hw => (parse_stream_xcb_cat p fs input w hw).2,
   fun p fs s ws h w hw => (parse_json_str_cat p fs s ws h w hw).2,
   fun p fs input w hw => (parse_stream_raw_cat p fs input w hw).2⟩

/-- Concrete warning produced by the JSON-lines strategy on the line
`{"type": "warning", "message": "data race"}` with no readable files. -/
def wJsonDataRace : Warning :=
  { id := "unknown:0:9"
    warning_type := .dataRace
    severity := .critical
    file_path := "unknown"
    line_number := 0
    column_number := none
    message := "data race"
    code_context := emptyCtx
    suggested_fix := some "Protect shared mutable state with proper synchronization (locks, actors, or atomic operations)." }

/-- Witness for C1 at a concrete input of the JSON-lines strategy. -/
theorem no_unknown_warning_constructed_witness :
    wJsonDataRace.warning_type ≠ .unknown :=
  no_unknown_warning_constructed.1 ⟨3⟩ fsEmpty
    ["\x7b\"type\": \"warning\", \"message\": \"data race\"\x7d"]
    wJsonDataRace (by decide)

/-- C2: a message matching both the data-race vocabulary and the
actor-isolation vocabulary classifies as `(DataRace, Critical)` — the
data-race check is evaluated first and first match wins — never as
`(ActorIsolation, _)`. -/
theorem data_race_takes_precedence (m : String)
    (h1 : RE.isMatchCI DATA_RACE m = true)
    (h2 : RE.isMatchCI ACTOR_ISOLATION m = true) :
    categorize_warning m = (.dataRace, .critical) ∧
      (categorize_warning m).1 ≠ .actorIsolation := by
  have : categorize_warning m = (.dataRace, .critical) := by
    unfold categorize_warning
    simp [h1]
  exact ⟨this, by rw [this]; simp⟩

/-- Witness for C2 at a concrete message matching both vocabularies. -/
theorem data_race_takes_precedence_witness :
    RE.isMatchCI DATA_RACE "data race: variable x is actor-isolated" = true ∧
    RE.isMatchCI ACTOR_ISOLATION "data race: variable x is actor-isolated" = true ∧
    categorize_warning "data race: variable x is actor-isolated" = (.dataRace, .critical) :=
  ⟨by decide, by decide,
   (data_race_takes_precedence _ (by decide) (by decide)).1⟩

/-- Concrete warning produced by the raw-text strategy from an
actor-isolation line (severity High). -/
def wRawActorHigh : Warning :=
  { id := "/test/A.swift:1:77"
    warning_type := .actorIsolation
    severity := .high
    file_path := "/test/A.swift"
    line_number := 1
    column_number := some 1
    message := "actor-isolated property 'x' can not be referenced from a non-isolated context"
    code_context := emptyCtx
    suggested_fix := some "Use 'await' to access the actor-isolated member, or move this code into an actor context." }

/-- Concrete warning produced by the raw-text strategy from a
detached-task line (same warning type, severity Medium). -/
def wRawActorMedium : Warning :=
  { id := "/test/B.swift:2:26"
    warning_type := .actorIsolation
    severity := .medium
    file_path := "/test/B.swift"
    line_number := 2
    column_number := some 1
    message := "detached task created here"
    code_context := emptyCtx
    suggested_fix := some "Ensure proper actor isolation by using 'await' or moving code to appropriate actor context." }

/-- The two raw-log input lines realizing `wRawActorHigh` and
`wRawActorMedium`. -/
def rawTwoSeverityInput : List String :=
  ["/test/A.swift:1:1: warning: actor-isolated property 'x' can not be referenced from a non-isolated context",
   "/test/B.swift:2:1: warning: detached task created here"]

/-- C3 counterexample: `categorize_warning` maps task-lifecycle messages
to `(ActorIsolation, Medium)` and actor-isolation messages to
`(ActorIsolation, High)`, so two parser-produced warnings can share
`warning_type` yet differ in severity — severity is not a function of
`warning_type`. -/
theorem severity_not_function_of_type_cex :
    ¬ (∀ (p : RawLogParser) (fs : FileSys) (input : List String),
        ∀ w1 ∈ p.parse_stream fs input, ∀ w2 ∈ p.parse_stream fs input,
          w1.warning_type = w2.warning_type → w1.severity = w2.severity) := by
  intro hclaim
  have h := hclaim ⟨0⟩ fsEmpty rawTwoSeverityInput
    wRawActorHigh (by decide) wRawActorMedium (by decide) (by decide)
  exact absurd h (by decide)

/-- A warning produced by one of the three parsing strategies on some
input. -/
def ProducedWarning (w : Warning) : Prop :=
  (∃ (p : XcodeBuildParser) (fs : FileSys) (input : List String),
      w ∈ p.parse_stream fs input) ∨
  (∃ (p : XcresultParser) (fs : FileSys) (s : String) (ws : List Warning),
      p.parse_json fs s = .ok ws ∧ w ∈ ws) ∨
  (∃ (p : RawLogParser) (fs : FileSys) (input : List String),
      w ∈ p.parse_stream fs input)

/-- Any parser-produced warning carries the classification of its
message. -/
theorem producedWarning_cat (w : Warning) (h : ProducedWarning w) :
    (w.warning_type, w.severity) = categorize_warning w.message := by
  rcases h with ⟨p, fs, input, hw⟩ | ⟨p, fs, s, ws, hok, hw⟩ | ⟨p, fs, input, hw⟩
  · exact (parse_stream_xcb_cat p fs input w hw).1
  · exact (parse_json_str_cat p fs s ws hok w hw).1
  · exact (parse_stream_raw_cat p fs input w hw).1

/-- C3 amended: severity is derived from the classification rule that
fired, and for the types other than ActorIsolation that rule is unique,
so equal `warning_type` implies equal severity except for
ActorIsolation, which arises at both High (isolation violations) and
Medium (task-lifecycle messages). -/
theorem severity_function_of_type_amended (w1 w2 : Warning)
    (h1 : ProducedWarning w1) (h2 : ProducedWarning w2)
    (ht : w1.warning_type = w2.warning_type) :
    (w1.warning_type ≠ .actorIsolation → w1.severity = w2.severity) ∧
    (w1.warning_type = .actorIsolation →
      (w1.severity = .high ∨ w1.severity = .medium)) := by
  have e1 := producedWarning_cat w1 h1
  have e2 := producedWarning_cat w2 h2
  rcases categorize_warning_shape w1.message with hs1 | hs1 | hs1 | hs1 | hs1 | hs1 <;>
    rcases categorize_warning_shape w2.message with hs2 | hs2 | hs2 | hs2 | hs2 | hs2 <;>
      rw [hs1] at e1 <;> rw [hs2] at e2 <;>
        exact ⟨fun hne => by simp_all [Prod.ext_iff], fun heq => by simp_all [Prod.ext_iff]⟩

/-- Witness for C3's amended theorem at two concrete raw-log warnings of
equal warning type. -/
theorem severity_function_of_type_amended_witness :
    (wRawActorHigh.warning_type ≠ .actorIsolation →
      wRawActorHigh.severity = wRawActorMedium.severity) ∧
    (wRawActorHigh.warning_type = .actorIsolation →
      (wRawActorHigh.severity = .high ∨ wRawActorHigh.severity = .medium)) :=
  severity_function_of_type_amended wRawActorHigh wRawActorMedium
    (Or.inr (Or.inr ⟨⟨0⟩, fsEmpty, rawTwoSeverityInput, by decide⟩))
    (Or.inr (Or.inr ⟨⟨0⟩, fsEmpty, rawTwoSeverityInput, by decide⟩))
    (by decide)

/-- C4: the dispatcher's fallback policy — a non-empty primary result is
final; an empty primary result triggers the raw-text strategy on the
re-read input, whose result is final even if also empty; and a
structured-tree document with an empty issues array yields an empty
final result with no error. -/
theorem dispatcher_fallback_policy :
    (∀ (c : Nat) (fs : FileSys) (input : String) (ws : List Warning),
      primaryStrategy c fs input = .ok ws → ws ≠ [] →
        dispatch c fs input = .ok ws) ∧
    (∀ (c : Nat) (fs : FileSys) (input : String),
      primaryStrategy c fs input = .ok [] →
        dispatch c fs input =
          .ok (RawLogParser.parse_stream ⟨c⟩ fs (linesOf input))) ∧
    (primaryStrategy 3 fsEmpty "\x7b\"_values\": []\x7d" = .ok [] ∧
      dispatch 3 fsEmpty "\x7b\"_values\": []\x7d" = .ok []) := by
  refine ⟨?_, ?_, by decide, by decide⟩
  · intro c fs input ws hp hne
    unfold dispatch
    rw [hp]
    simp [hne]
  · intro c fs input hp
    unfold dispatch
    rw [hp]
    simp

/-- Witness for C4 at a concrete JSON-lines input whose primary result is
non-empty (so the raw-text fallback is not consulted). -/
theorem dispatcher_fallback_policy_witness :
    dispatch 3 fsEmpty "\x7b\"type\": \"warning\", \"message\": \"data race\"\x7d" =
      .ok [wJsonDataRace] :=
  dispatcher_fallback_policy.1 3 fsEmpty
    "\x7b\"type\": \"warning\", \"message\": \"data race\"\x7d" [wJsonDataRace]
    (by decide) (by decide)

/-- C5: in the JSON-lines strategies a line produces a Warning only if
its `type`/`message_type` field equals the literal "warning"
(case-sensitive) and classification yields a non-Unknown type; a missing
file path defaults to "unknown", a missing line number defaults to 0,
and the id is `file_path + ":" + line_number + ":" + message.length`. -/
theorem json_lines_acceptance_and_defaults :
    (∀ (p : XcodeBuildParser) (fs : FileSys) (d : XcodeBuildDiagnostic) (w : Warning),
      p.extract_warning_from_diagnostic fs d = some w →
        d.diagnostic_type = "warning" ∧
        (categorize_warning d.message).1 ≠ .unknown ∧
        (d.file = none → w.file_path = "unknown") ∧
        (d.line = none → w.line_number = 0) ∧
        w.id = w.file_path ++ ":" ++ Nat.repr w.line_number ++ ":" ++
          Nat.repr (strBytes w.message)) ∧
    (∀ (p : XcodeBuildParser) (fs : FileSys) (m : XcodeBuildMessage) (w : Warning),
      p.extract_warning_from_message fs m = some w →
        m.message_type = "warning" ∧
        (categorize_warning m.message).1 ≠ .unknown ∧
        (m.file_path = none → w.file_path = "unknown") ∧
        (m.line_number = none → w.line_number = 0) ∧
        w.id = w.file_path ++ ":" ++ Nat.repr w.line_number ++ ":" ++
          Nat.repr (strBytes w.message)) ∧
    (∀ (p : XcodeBuildParser) (fs : FileSys) (j : Json) (w : Warning),
      p.extract_warning_from_value fs j = some w →
        (j.get "type").bind Json.asStr = some "warning" ∧
        (categorize_warning w.message).1 ≠ .unknown ∧
        (j.get "file" = none → j.get "filePath" = none → w.file_path = "unknown") ∧
        (j.get "line" = none → j.get "lineNumber" = none → w.line_number = 0) ∧
        w.id = w.file_path ++ ":" ++ Nat.repr w.line_number ++ ":" ++
          Nat.repr (strBytes w.message)) := by
  refine ⟨?_, ?_, ?_⟩
  · intro p fs d w h
    unfold XcodeBuildParser.extract_warning_from_diagnostic at h
    split at h
    · exact absurd h (by simp)
    next hty =>
      simp only [] at h
      split at h
      · exact absurd h (by simp)
      next hne =>
        cases h
        refine ⟨by simpa using hty, by simpa using hne, ?_, ?_, rfl⟩
        · intro hf; simp [hf]
        · intro hl; simp [hl]
  · intro p fs m w h
    unfold XcodeBuildParser.extract_warning_from_message at h
    split at h
    · exact absurd h (by simp)
    next hty =>
      simp only [] at h
      split at h
      · exact absurd h (by simp)
      next hne =>
        cases h
        refine ⟨by simpa using hty, by simpa using hne, ?_, ?_, rfl⟩
        · intro hf; simp [hf]
        · intro hl; simp [hl]
  · intro p fs j w h
    unfold XcodeBuildParser.extract_warning_from_value at h
    split at h
    · exact absurd h (by simp)
    next msg_type hty =>
      split at h
      · exact absurd h (by simp)
      next hne' =>
        split at h
        · exact absurd h (by simp)
        next message hmsg =>
          simp only [] at h
          split at h
          · exact absurd h (by simp)
          next hne =>
            cases h
            refine ⟨?_, by simpa using hne, ?_, ?_, rfl⟩
            · have hmt : msg_type = "warning" := by simpa using hne'
              rw [hty, hmt]
            · intro hf hfp; simp [hf, hfp]
            · intro hl hln; simp [hl, hln]

/-- Concrete diagnostic record with no location fields, accepted by the
JSON-lines strategy. -/
def dDataRace : XcodeBuildDiagnostic :=
  ⟨"warning", "data race", none, none, none, none, none, none, none⟩

/-- Witness for C5 at a concrete diagnostic with missing file path and
line number. -/
theorem json_lines_acceptance_and_defaults_witness :
    dDataRace.diagnostic_type = "warning" ∧
    (categorize_warning dDataRace.message).1 ≠ .unknown ∧
    (dDataRace.file = none → wJsonDataRace.file_path = "unknown") ∧
    (dDataRace.line = none → wJsonDataRace.line_number = 0) ∧
    wJsonDataRace.id = wJsonDataRace.file_path ++ ":" ++
      Nat.repr wJsonDataRace.line_number ++ ":" ++
      Nat.repr (strBytes wJsonDataRace.message) :=
  json_lines_acceptance_and_defaults.1 ⟨3⟩ fsEmpty dDataRace wJsonDataRace
    (by decide)

/-- C6: the structured-tree strategy returns a terminal parse error —
never an empty list — exactly when the parsed top-level document has
neither a `_values` key holding an array nor is itself a bare array;
either structural form with zero issues yields `Ok` with an empty
list. -/
theorem xcresult_terminal_error_iff_structural (p : XcresultParser)
    (fs : FileSys) (s : String) (value : Json)
    (hp : jsonParse s = some value) :
    ((value.get "_values").bind Json.asArr = none → value.isArr = false →
      p.parse_json fs s =
        .error (.invalidFormat "xcresult JSON missing _values array")) ∧
    (∀ issues, (value.get "_values").bind Json.asArr = some issues →
      ∃ ws, p.parse_json fs s = .ok ws) ∧
    (value.isArr = true → ∃ ws, p.parse_json fs s = .ok ws) ∧
    ((value.get "_values").bind Json.asArr = some [] →
      p.parse_json fs s = .ok []) ∧
    ((value.get "_values").bind Json.asArr = none → value.asArr = some [] →
      p.parse_json fs s = .ok []) := by
  have hbase : p.parse_json fs s = p.parse_json_value fs value := by
    unfold XcresultParser.parse_json
    rw [hp]
  rcases hvv : (value.get "_values").bind Json.asArr with _ | issues
  · refine ⟨?_, ?_, ?_, ?_, ?_⟩
    · intro _ ha
      rw [hbase]
      unfold XcresultParser.parse_json_value
      rw [hvv]
      simp [ha]
    · intro issues hcontra
      exact Option.noConfusion hcontra
    · intro ha
      refine ⟨(value.asArr.getD []).filterMap (p.processIssue fs), ?_⟩
      rw [hbase]
      unfold XcresultParser.parse_json_value
      rw [hvv]
      simp [ha]
    · intro hcontra
      exact Option.noConfusion hcontra
    · intro _ ha
      rw [hbase]
      unfold XcresultParser.parse_json_value
      rw [hvv]
      cases value <;> simp_all [Json.asArr, Json.isArr]
  · refine ⟨?_, ?_, ?_, ?_, ?_⟩
    · intro hcontra
      exact Option.noConfusion hcontra
    · intro issues' _
      refine ⟨issues.filterMap (p.processIssue fs), ?_⟩
      rw [hbase]
      unfold XcresultParser.parse_json_value
      rw [hvv]
    · intro _
      refine ⟨issues.filterMap (p.processIssue fs), ?_⟩
      rw [hbase]
      unfold XcresultParser.parse_json_value
      rw [hvv]
    · intro hi
      have hie : issues = [] := by simpa using hi
      rw [hbase]
      unfold XcresultParser.parse_json_value
      rw [hvv, hie]
      rfl
    · intro hcontra
      exact Option.noConfusion hcontra

/-- Witness for C6 at a concrete document failing the structural check
(an object with neither a `_values` array nor a bare array). -/
theorem xcresult_terminal_error_iff_structural_witness :
    XcresultParser.parse_json ⟨2⟩ fsEmpty "\x7b\"wrong_structure\": []\x7d" =
      .error (.invalidFormat "xcresult JSON missing _values array") :=
  (xcresult_terminal_error_iff_structural ⟨2⟩ fsEmpty "\x7b\"wrong_structure\": []\x7d"
    (Json.obj [("wrong_structure", Json.arr [])]) rfl).1 rfl rfl

/-- Every warning built by the tree strategy's issue loop has no column
number and no suggested fix. -/
theorem processIssue_fields_none (p : XcresultParser) (fs : FileSys)
    (issue : Json) (w : Warning) (h : p.processIssue fs issue = some w) :
    w.column_number = none ∧ w.suggested_fix = none := by
  unfold XcresultParser.processIssue at h
  split at h
  · exact absurd h (by simp)
  · simp only [] at h
    split at h
    · exact absurd h (by simp)
    · split at h
      · exact absurd h (by simp)
      · split at h
        · exact absurd h (by simp)
        · cases h
          exact ⟨rfl, rfl⟩

/-- No-column/no-fix lifted to the whole `parse_json` result. -/
theorem parse_json_value_ok_fields (p : XcresultParser) (fs : FileSys)
    (value : Json) (ws : List Warning)
    (h : p.parse_json_value fs value = .ok ws) (w : Warning) (hw : w ∈ ws) :
    w.column_number = none ∧ w.suggested_fix = none := by
  unfold XcresultParser.parse_json_value at h
  split at h
  · cases h
    obtain ⟨issue, _, hi⟩ := List.mem_filterMap.mp hw
    exact processIssue_fields_none _ _ _ _ hi
  · split at h
    · cases h
      obtain ⟨issue, _, hi⟩ := List.mem_filterMap.mp hw
      exact processIssue_fields_none _ _ _ _ hi
    · cases h

/-- Concrete structured-tree document with a single issue of type
"Swift Compiler Error" whose message is nonetheless concurrency
relevant. -/
def errIssueDoc : String :=
  "\x7b\"_values\": [\x7b\"issueType\": \x7b\"_value\": \"Swift Compiler Error\"\x7d, \"message\": \x7b\"_value\": \"data race detected\"\x7d, \"documentLocationInCreatingWorkspace\": \x7b\"url\": \x7b\"_value\": \"file:///t/E.swift#StartingLineNumber=5\"\x7d\x7d\x7d]\x7d"

/-- C7: the tree strategy skips issue entries whose `issueType` does not
case-insensitively contain "warning" (so a lone "Swift Compiler Error"
issue yields zero warnings regardless of its message), skips entries
whose location URL fails the extraction pattern without error, and every
warning it emits has no column number and no suggested fix. -/
theorem xcresult_issue_skipping (p : XcresultParser) (fs : FileSys) :
    (∀ issue : Json,
      strContains (lowerStr (XcresultParser.issueTypeOf issue)) "warning" = false →
        p.processIssue fs issue = none) ∧
    (∀ (issue : Json) (u : String), XcresultParser.urlOf issue = some u →
      urlParse u = none → p.processIssue fs issue = none) ∧
    (∀ (s : String) (ws : List Warning), p.parse_json fs s = .ok ws →
      ∀ w ∈ ws, w.column_number = none ∧ w.suggested_fix = none) ∧
    (XcresultParser.parse_json ⟨3⟩ fsEmpty errIssueDoc = .ok []) := by
  refine ⟨?_, ?_, ?_, by decide⟩
  · intro issue h
    have hc : ¬ strContains (lowerStr (XcresultParser.issueTypeOf issue)) "warning" = true := by
      simp [h]
    unfold XcresultParser.processIssue
    exact if_pos hc
  · intro issue u hu hnone
    unfold XcresultParser.processIssue
    by_cases hg : ¬ strContains (lowerStr (XcresultParser.issueTypeOf issue)) "warning" = true
    · exact if_pos hg
    · rw [if_neg hg]
      simp only [hu, hnone]
      simp
  · intro s ws h w hw
    unfold XcresultParser.parse_json at h
    split at h
    · cases h
    · exact parse_json_value_ok_fields _ _ _ _ h w hw

/-- Witness for C7 at a concrete error-typed issue entry. -/
theorem xcresult_issue_skipping_witness :
    XcresultParser.processIssue ⟨3⟩ fsEmpty
      (Json.obj [("issueType", Json.obj [("_value", Json.str "Swift Compiler Error")])]) =
      none :=
  (xcresult_issue_skipping ⟨3⟩ fsEmpty).1
    (Json.obj [("issueType", Json.obj [("_value", Json.str "Swift Compiler Error")])])
    (by decide)

/-- The `XcodeBuildParser` and `RawLogParser` context extractors compute
the same function (their window bounds `target + C + 1` and
`target + 1 + C` coincide). -/
theorem extract_code_context_xcb_eq_raw (c : Nat) (fs : FileSys)
    (path : String) (n : Nat) :
    XcodeBuildParser.extract_code_context ⟨c⟩ fs path n =
      RawLogParser.extract_code_context ⟨c⟩ fs path n := by
  unfold XcodeBuildParser.extract_code_context RawLogParser.extract_code_context
  cases fs path with
  | none => rfl
  | some ls =>
    simp only []
    rw [show n - 1 + c + 1 = n - 1 + 1 + c from by omega]

/-- Concrete five-line file system for the clipping scenario. -/
def fs5 : FileSys :=
  fun p => if p = "five.swift" then some ["l1", "l2", "l3", "l4", "l5"] else none

/-- C8: the context extractor returns an all-empty context (never an
error) when the file is unreadable or the 1-based line number is zero or
beyond end of file; in bounds it returns up to `C` lines strictly
before, the exact target line, and up to `C` lines strictly after,
clipped at the file boundaries — for a 5-line file with `C = 3` and
target line 1, before is empty and after is lines 2–4. -/
theorem context_extractor_clipping :
    (∀ (c : Nat) (fs : FileSys) (path : String) (n : Nat),
      XcodeBuildParser.extract_code_context ⟨c⟩ fs path n =
        RawLogParser.extract_code_context ⟨c⟩ fs path n) ∧
    (∀ (c : Nat) (fs : FileSys) (path : String) (n : Nat),
      fs path = none →
        RawLogParser.extract_code_context ⟨c⟩ fs path n = emptyCtx) ∧
    (∀ (c : Nat) (fs : FileSys) (path : String),
      RawLogParser.extract_code_context ⟨c⟩ fs path 0 = emptyCtx) ∧
    (∀ (c : Nat) (fs : FileSys) (path : String) (n : Nat) (ls : List String),
      fs path = some ls → ls.length < n →
        RawLogParser.extract_code_context ⟨c⟩ fs path n = emptyCtx) ∧
    (∀ (c : Nat) (fs : FileSys) (path : String) (n : Nat) (ls : List String),
      fs path = some ls → 1 ≤ n → n ≤ ls.length →
      (RawLogParser.extract_code_context ⟨c⟩ fs path n).before =
          (ls.take (n - 1)).drop (n - 1 - c) ∧
        (RawLogParser.extract_code_context ⟨c⟩ fs path n).before.length ≤ c ∧
        ls.get? (n - 1) =
          some (RawLogParser.extract_code_context ⟨c⟩ fs path n).line ∧
        (RawLogParser.extract_code_context ⟨c⟩ fs path n).after =
          (ls.drop n).take c ∧
        (RawLogParser.extract_code_context ⟨c⟩ fs path n).after.length ≤ c) ∧
    (RawLogParser.extract_code_context ⟨3⟩ fs5 "five.swift" 1 =
      ⟨[], "l1", ["l2", "l3", "l4"]⟩) := by
  refine ⟨extract_code_context_xcb_eq_raw, ?_, ?_, ?_, ?_, by decide⟩
  · intro c fs path n hfs
    unfold RawLogParser.extract_code_context
    rw [hfs]
  · intro c fs path
    unfold RawLogParser.extract_code_context
    cases fs path with
    | none => rfl
    | some ls => simp
  · intro c fs path n ls hfs hlt
    unfold RawLogParser.extract_code_context
    rw [hfs]
    simp only []
    rw [if_neg (by omega)]
  · intro c fs path n ls hfs h1 h2
    have hcond : 0 < n ∧ n ≤ ls.length := ⟨by omega, h2⟩
    have hbody : RawLogParser.extract_code_context ⟨c⟩ fs path n =
        { before := sliceList ls (n - 1 - c) (n - 1)
          line := (ls.get? (n - 1)).getD ""
          after := sliceList ls (n - 1 + 1) (min (n - 1 + 1 + c) ls.length) } := by
      unfold RawLogParser.extract_code_context
      rw [hfs]
      simp only []
      rw [if_pos hcond]
    have hlt : n - 1 < ls.length := by omega
    rw [hbody]
    refine ⟨?_, ?_, ?_, ?_, ?_⟩
    · simp only [sliceList]
      rw [List.drop_take]
    · simp only [sliceList]
      rw [List.length_take, List.length_drop]
      omega
    · simp [List.getElem?_eq_getElem hlt]
    · simp only [sliceList]
      rw [show n - 1 + 1 = n from by omega]
      rcases le_or_lt (n + c) ls.length with hle | hgt
      · rw [min_eq_left hle, show n + c - n = c from by omega]
      · rw [min_eq_right (le_of_lt hgt)]
        have ha : (ls.drop n).length ≤ ls.length - n := by
          rw [List.length_drop]
        have hb : (ls.drop n).length ≤ c := by
          rw [List.length_drop]
          omega
        rw [List.take_of_length_le ha, List.take_of_length_le hb]
    · simp only [sliceList]
      rw [List.length_take, List.length_drop]
      omega

/-- Witness for C8's in-bounds clipping at a concrete three-line window
in the five-line file. -/
theorem context_extractor_clipping_witness :
    (RawLogParser.extract_code_context ⟨1⟩ fs5 "five.swift" 2).before =
        ((["l1", "l2", "l3", "l4", "l5"].take 1).drop 0) ∧
      (RawLogParser.extract_code_context ⟨1⟩ fs5 "five.swift" 2).before.length ≤ 1 ∧
      ["l1", "l2", "l3", "l4", "l5"].get? 1 =
        some (RawLogParser.extract_code_context ⟨1⟩ fs5 "five.swift" 2).line ∧
      (RawLogParser.extract_code_context ⟨1⟩ fs5 "five.swift" 2).after =
        ((["l1", "l2", "l3", "l4", "l5"].drop 2).take 1) ∧
      (RawLogParser.extract_code_context ⟨1⟩ fs5 "five.swift" 2).after.length ≤ 1 :=
  context_extractor_clipping.2.2.2.2.1 1 fs5 "five.swift" 2
    ["l1", "l2", "l3", "l4", "l5"] (by decide) (by decide) (by decide)

/-- The raw-text line of the C9 scenario. -/
def c9Line : String :=
  "/test/File.swift:30:5: warning: Type 'MyClass' does not conform to the 'Sendable' protocol"

/-- The warning the raw-text strategy produces from `c9Line` with no
readable files. -/
def wC9 : Warning :=
  { id := "/test/File.swift:30:58"
    warning_type := .sendableConformance
    severity := .high
    file_path := "/test/File.swift"
    line_number := 30
    column_number := some 5
    message := "Type 'MyClass' does not conform to the 'Sendable' protocol"
    code_context := emptyCtx
    suggested_fix := some "Add 'Sendable' conformance to the type or use '@unchecked Sendable' if thread-safe." }

/-- C9: the raw-text strategy turns the Sendable-conformance line into
exactly one warning with the claimed fields, and every line that fails
the `WARNING_PATTERN` match is skipped (the per-line function returns
`none`, never an error). -/
theorem rawlog_concrete_scenario_and_skip :
    (RawLogParser.parse_stream ⟨3⟩ fsEmpty [c9Line] = [wC9] ∧
      strEndsWith wC9.file_path "File.swift" = true ∧
      wC9.line_number = 30 ∧
      wC9.column_number = some 5 ∧
      wC9.warning_type = .sendableConformance) ∧
    (∀ (p : RawLogParser) (fs : FileSys) (line : String),
      matchWarningLine (trimStr line) = none →
        p.parse_warning_line fs line = none) := by
  refine ⟨by decide, ?_⟩
  intro p fs line h
  unfold RawLogParser.parse_warning_line
  rw [h]

/-- Witness for C9's skip clause at a concrete non-matching line. -/
theorem rawlog_concrete_scenario_and_skip_witness :
    RawLogParser.parse_warning_line ⟨2⟩ fsEmpty "This is not a warning line" =
      none :=
  rawlog_concrete_scenario_and_skip.2 ⟨2⟩ fsEmpty "This is not a warning line"
    (by decide)

/-- The streaming push loop accumulates exactly the `filterMap` of the
scanned list. -/
theorem foldl_pushHit_filterMap (ls : List String) (acc : List String) :
    ls.foldl pushHit acc = acc ++ ls.filterMap concurrencyHit := by
  induction ls generalizing acc with
  | nil => simp
  | cons hd tl ih =>
    rw [List.foldl_cons, List.filterMap_cons]
    cases hx : concurrencyHit hd with
    | none =>
      have hstep : pushHit acc hd = acc := by
        unfold pushHit
        rw [hx]
      rw [hstep]
      exact ih acc
    | some b =>
      have hstep : pushHit acc hd = acc ++ [b] := by
        unfold pushHit
        rw [hx]
      rw [hstep]
      show List.foldl pushHit (acc ++ [b]) tl =
        acc ++ (b :: List.filterMap concurrencyHit tl)
      rw [ih, List.append_assoc, List.singleton_append]

/-- C10: the in-memory and streaming variants of the public scanning API
are equivalent — on every input string the streaming variant succeeds
with exactly the message list, in order, of the in-memory variant. -/
theorem find_concurrency_warnings_streaming_equiv (input : String) :
    find_concurrency_warnings_streaming input =
      .ok (find_concurrency_warnings input) := by
  unfold find_concurrency_warnings_streaming find_concurrency_warnings
  exact congrArg Except.ok
    ((foldl_pushHit_filterMap (linesOf input) []).trans (List.nil_append _))

end SwiftConcur
